import Mathlib

/-!
# Black-Anvil front end: the click handler of `tauri-app/main.js`

The file binds one asynchronous listener to the `run` button:

```
runBtn.addEventListener("click", async () => {
  output.textContent = "Running...";
  try {
    const res = await invoke("run_starlark", { script: textarea.value });
    output.textContent = String(res);
  } catch (e) {
    output.textContent = `Error: ${e}`;
  }
});
```

The embedding is state passing over a `World` (the two DOM properties the
handler touches, the invocations whose promise has not settled yet, and a
log of what happened), driven by the events of the browser's event loop:
a click, an edit of the textarea, and the settlement of a backend promise.
The asynchronous handler is split at its single `await`:
`clickHandlerStart` is the part that runs inside the click task, and
`clickHandlerResume` is the continuation that runs when the awaited promise
settles.  Both run to completion without interleaving, as JavaScript tasks
and microtasks do.

Assumptions of the model: the three elements exist; `invoke` returns a
promise (a synchronous throw is the same as a rejection delivered as the very
next event); converting a value to a string has no effect on the DOM.
-/

namespace BlackAnvil

/-! ## JavaScript values and their string conversions -/

/-- JavaScript values as far as their conversion to a string is concerned.
`int` stands for integer-valued numbers printed in decimal, `error` for an
`Error` instance with its `name` and `message`, `object` for any object whose
`toString()` returns `repr`, and `throwing` for an object whose conversion to
a string throws `thrown`. -/
inductive JSVal where
  | undefined
  | null
  | bool (b : Bool)
  | int (n : Int)
  | str (s : String)
  | symbol (description : Option String)
  | error (name message : String)
  | object (repr : String)
  | throwing (thrown : JSVal)
  deriving DecidableEq

/-- The `TypeError` raised by the abstract operation ToString on a Symbol. -/
def symbolTypeError : JSVal :=
  .error "TypeError" "Cannot convert a Symbol value to a string"

/-- `Error.prototype.toString`: the name, a colon and the message, where an
empty name or an empty message leaves the other part alone. -/
def errorToString (name message : String) : String :=
  if name = "" then message
  else if message = "" then name
  else name ++ ": " ++ message

/-- The abstract operation ToString, the conversion used by a template literal
`${v}`: a string, or the value thrown by the conversion. -/
def templateString : JSVal → Except JSVal String
  | .undefined => .ok "undefined"
  | .null => .ok "null"
  | .bool b => .ok (if b then "true" else "false")
  | .int n => .ok (toString n)
  | .str s => .ok s
  | .symbol _ => .error symbolTypeError
  | .error name message => .ok (errorToString name message)
  | .object repr => .ok repr
  | .throwing thrown => .error thrown

/-- The call `String(v)`: as ToString, except that a Symbol is described
instead of rejected. -/
def jsString : JSVal → Except JSVal String
  | .symbol description => .ok ("Symbol(" ++ description.getD "" ++ ")")
  | v => templateString v

/-! ## The world the handler runs in -/

/-- A backend invocation: the command name and the argument mapping, as a list
of key and value pairs. -/
structure Request where
  cmd : String
  args : List (String × String)
  deriving DecidableEq

/-- How the promise returned by `invoke` settles. -/
inductive Outcome where
  | resolved (res : JSVal)
  | rejected (e : JSVal)
  deriving DecidableEq

/-- How one activation of the asynchronous handler ends: its own promise
resolves (`returned`) or an exception escapes it (`threw`). -/
inductive Completion where
  | returned
  | threw (e : JSVal)
  deriving DecidableEq

/-- What is recorded in the log, oldest entry first. -/
inductive Effect where
  | write (text : String)
  | invoke (id : Nat) (req : Request)
  | settled (id : Nat) (o : Outcome)
  | finished (id : Nat) (c : Completion)
  deriving DecidableEq

/-- The state: `output.textContent`, `textarea.value`, the invocations that
are still pending (each one has a handler activation suspended at its
`await`), and the log. -/
structure World where
  output : String
  textarea : String
  pending : List Nat
  log : List Effect
  deriving DecidableEq

/-- The page before any click: `text` in the output element, `script` in the
textarea. -/
def World.fresh (text script : String) : World :=
  { output := text, textarea := script, pending := [], log := [] }

/-- The backend invocations recorded in a log, in the order they were
issued. -/
def calls : List Effect → List Request
  | [] => []
  | .invoke _ req :: rest => req :: calls rest
  | _ :: rest => calls rest

/-- Reading one log entry while looking for the latest settlement. -/
def noteSettled (latest : Option (Nat × Outcome)) : Effect → Option (Nat × Outcome)
  | .settled id o => some (id, o)
  | _ => latest

/-- The invocation that settled last and its outcome, if any has settled. -/
def lastSettled (log : List Effect) : Option (Nat × Outcome) :=
  log.foldl noteSettled none

/-- The completions of the handler activations recorded in a log. -/
def completions : List Effect → List (Nat × Completion)
  | [] => []
  | .finished id c :: rest => (id, c) :: completions rest
  | _ :: rest => completions rest

/-! ## The handler -/

/-- The assignment `output.textContent = text`. -/
def setOutput (w : World) (text : String) : World :=
  { w with output := text, log := w.log ++ [.write text] }

/-- The call `invoke(cmd, args)`: the request goes to the backend at once and
a new pending promise is returned, numbered by the count of earlier
invocations. -/
def invoke (w : World) (cmd : String) (args : List (String × String)) : World × Nat :=
  let id := (calls w.log).length
  ({ w with pending := w.pending ++ [id], log := w.log ++ [.invoke id ⟨cmd, args⟩] }, id)

/-- Lines 8 to 10 up to the `await`: what the handler does inside the click
task. -/
def clickHandlerStart (w : World) : World :=
  let w1 := setOutput w "Running..."
  (invoke w1 "run_starlark" [("script", w1.textarea)]).1

/-- Lines 12 to 14, the `catch (e)` clause.  The template literal may itself
throw, and then nothing is written and the exception leaves the handler. -/
def catchClause (w : World) (e : JSVal) : World × Completion :=
  match templateString e with
  | .ok s => (setOutput w ("Error: " ++ s), .returned)
  | .error x => (w, .threw x)

/-- Lines 10 to 14 from the `await` on: the continuation of the handler once
the awaited promise has settled.  A rejection is thrown at the `await`, inside
the `try`; so is whatever `String(res)` throws. -/
def clickHandlerResume (w : World) : Outcome → World × Completion
  | .resolved res =>
    match jsString res with
    | .ok s => (setOutput w s, .returned)
    | .error x => catchClause w x
  | .rejected e => catchClause w e

/-! ## The event loop -/

/-- What can happen to the page. -/
inductive Event where
  | click
  | input (text : String)
  | settle (id : Nat) (o : Outcome)
  deriving DecidableEq

/-- One turn of the event loop.  A promise settles once, so the settlement of
an invocation that is not pending changes nothing. -/
def step (w : World) : Event → World
  | .click => clickHandlerStart w
  | .input text => { w with textarea := text }
  | .settle id o =>
    if id ∈ w.pending then
      let w1 := { w with pending := w.pending.erase id, log := w.log ++ [.settled id o] }
      let r := clickHandlerResume w1 o
      { r.1 with log := r.1.log ++ [.finished id r.2] }
    else w

/-- A sequence of turns. -/
def run (w : World) (es : List Event) : World :=
  es.foldl step w

/-- The number of clicks in a sequence of events. -/
def clicks : List Event → Nat
  | [] => 0
  | .click :: rest => clicks rest + 1
  | _ :: rest => clicks rest

/-- The request the handler builds for the script `s`. -/
def scriptRequest (s : String) : Request :=
  ⟨"run_starlark", [("script", s)]⟩

/-! ## The specification's vocabulary -/

/-- The rendering of an outcome in the specification's words: `String(r)` for
a resolved value, the text `Error: ` followed by the coerced error for a
rejection; `none` where the value is not coercible. -/
def rendering : Outcome → Option String
  | .resolved r =>
    match jsString r with
    | .ok s => some s
    | .error _ => none
  | .rejected e =>
    match templateString e with
    | .ok s => some ("Error: " ++ s)
    | .error _ => none

/-- The message of an error value in the specification's words: the `message`
of an `Error` instance, and a string that is rejected as it stands. -/
def messageOf : JSVal → Option String
  | .error _ message => some message
  | .str s => some s
  | _ => none

/-! ## Vocabulary of the statements -/

/-- An event that leaves the output alone while the invocations in `ids` are
pending: an edit of the textarea, or the settlement of an invocation that is
not among `ids`. -/
def idle (ids : List Nat) : Event → Bool
  | .click => false
  | .input _ => true
  | .settle id _ => !(ids.contains id)

/-- The events of typing each text of a list into the textarea and clicking,
one text after the other, with nothing settling in between. -/
def typeAndClick : List String → List Event
  | [] => []
  | s :: rest => .input s :: .click :: typeAndClick rest

/-- The invariant behind C4: when nothing is pending and a call has been made,
the output shows the rendering of the outcome that settled last. -/
def ShowsLastSettled (w : World) : Prop :=
  w.pending ≠ [] ∨ calls w.log = [] ∨
    ∃ id o, lastSettled w.log = some (id, o) ∧ ∀ t, rendering o = some t → w.output = t

/-! ## Lemmas about the log and the steps -/

theorem calls_append (l1 l2 : List Effect) : calls (l1 ++ l2) = calls l1 ++ calls l2 := by
  induction l1 with
  | nil => rfl
  | cons a rest ih => cases a <;> simp [calls, ih]

theorem completions_append (l1 l2 : List Effect) :
    completions (l1 ++ l2) = completions l1 ++ completions l2 := by
  induction l1 with
  | nil => rfl
  | cons a rest ih => cases a <;> simp [completions, ih]

theorem step_click (w : World) :
    step w .click =
      { output := "Running...", textarea := w.textarea,
        pending := w.pending ++ [(calls w.log).length],
        log := w.log ++ [.write "Running...",
          .invoke (calls w.log).length (scriptRequest w.textarea)] } := by
  simp [step, clickHandlerStart, invoke, setOutput, scriptRequest, calls_append, calls]

theorem step_settle_resolved (w : World) (id : Nat) (r : JSVal) (t : String)
    (hid : id ∈ w.pending) (ht : jsString r = .ok t) :
    step w (.settle id (.resolved r)) =
      { output := t, textarea := w.textarea, pending := w.pending.erase id,
        log := w.log ++ [.settled id (.resolved r), .write t, .finished id .returned] } := by
  simp [step, hid, clickHandlerResume, ht, setOutput]

theorem step_settle_rejected (w : World) (id : Nat) (e : JSVal) (t : String)
    (hid : id ∈ w.pending) (ht : templateString e = .ok t) :
    step w (.settle id (.rejected e)) =
      { output := "Error: " ++ t, textarea := w.textarea, pending := w.pending.erase id,
        log := w.log ++ [.settled id (.rejected e), .write ("Error: " ++ t),
          .finished id .returned] } := by
  simp [step, hid, clickHandlerResume, catchClause, ht, setOutput]

theorem step_settle_absent (w : World) (id : Nat) (o : Outcome) (hid : id ∉ w.pending) :
    step w (.settle id o) = w := by
  simp [step, hid]

theorem calls_step_settle (w : World) (id : Nat) (o : Outcome) :
    calls (step w (.settle id o)).log = calls w.log := by
  by_cases hid : id ∈ w.pending
  · cases o with
    | resolved r =>
      simp only [step, hid, if_true, clickHandlerResume]
      cases hr : jsString r with
      | ok t => simp [setOutput, calls_append, calls]
      | error x =>
        simp only [catchClause]
        cases hx : templateString x <;> simp [setOutput, calls_append, calls]
    | rejected e =>
      simp only [step, hid, if_true, clickHandlerResume, catchClause]
      cases he : templateString e <;> simp [setOutput, calls_append, calls]
  · rw [step_settle_absent w id o hid]

theorem run_cons (w : World) (e : Event) (es : List Event) :
    run w (e :: es) = run (step w e) es := rfl

theorem run_append (w : World) (es fs : List Event) :
    run w (es ++ fs) = run (run w es) fs := by
  simp [run, List.foldl_append]

theorem step_idle (w : World) (e : Event) (h : idle w.pending e = true) :
    (step w e).output = w.output ∧ (step w e).pending = w.pending ∧
      (step w e).log = w.log := by
  cases e with
  | click => simp [idle] at h
  | input text => simp [step]
  | settle id o =>
    have hid : id ∉ w.pending := by simpa [idle] using h
    rw [step_settle_absent w id o hid]
    exact ⟨rfl, rfl, rfl⟩

theorem run_idle (es : List Event) (w : World) (h : ∀ e ∈ es, idle w.pending e = true) :
    (run w es).output = w.output ∧ (run w es).pending = w.pending ∧
      (run w es).log = w.log := by
  induction es generalizing w with
  | nil => exact ⟨rfl, rfl, rfl⟩
  | cons e rest ih =>
    have he := step_idle w e (h e (List.mem_cons_self _ _))
    have hrest : ∀ x ∈ rest, idle (step w e).pending x = true := by
      intro x hx
      rw [he.2.1]
      exact h x (List.mem_cons_of_mem _ hx)
    have := ih (step w e) hrest
    rw [run_cons]
    exact ⟨this.1.trans he.1, this.2.1.trans he.2.1, this.2.2.trans he.2.2⟩

theorem calls_step (w : World) (e : Event) :
    calls (step w e).log = calls w.log ++
      (match e with
        | .click => [scriptRequest w.textarea]
        | _ => []) := by
  cases e with
  | click => rw [step_click]; simp [calls_append, calls]
  | input text => simp [step]
  | settle id o => simp [calls_step_settle]

theorem calls_length_run (es : List Event) (w : World) :
    (calls (run w es).log).length = (calls w.log).length + clicks es := by
  induction es generalizing w with
  | nil => rfl
  | cons e rest ih =>
    rw [run_cons, ih, calls_step]
    cases e <;> simp [clicks]
    omega

theorem clicks_typeAndClick (ss : List String) : clicks (typeAndClick ss) = ss.length := by
  induction ss with
  | nil => rfl
  | cons s rest ih => simp [typeAndClick, clicks, ih]

theorem error_text_ne_running (t : String) : "Error: " ++ t ≠ "Running..." := by
  intro h
  have h2 := congrArg String.data h
  rw [String.data_append] at h2
  have h3 : "Error: ".data = ['E', 'r', 'r', 'o', 'r', ':', ' '] := rfl
  have h4 : "Running...".data = ['R', 'u', 'n', 'n', 'i', 'n', 'g', '.', '.', '.'] := rfl
  rw [h3, h4] at h2
  simp at h2

theorem output_resume (w1 w2 : World) (o : Outcome) (h : w1.output = w2.output) :
    (clickHandlerResume w1 o).1.output = (clickHandlerResume w2 o).1.output := by
  cases o with
  | resolved r =>
    simp only [clickHandlerResume]
    cases hr : jsString r with
    | ok t => rfl
    | error x =>
      simp only [catchClause]
      cases hx : templateString x with
      | ok t => rfl
      | error y => exact h
  | rejected e =>
    simp only [clickHandlerResume, catchClause]
    cases he : templateString e with
    | ok t => rfl
    | error y => exact h

theorem textarea_resume (w : World) (o : Outcome) :
    (clickHandlerResume w o).1.textarea = w.textarea := by
  cases o with
  | resolved r =>
    simp only [clickHandlerResume]
    cases hr : jsString r with
    | ok t => rfl
    | error x =>
      simp only [catchClause]
      cases hx : templateString x <;> rfl
  | rejected e =>
    simp only [clickHandlerResume, catchClause]
    cases he : templateString e <;> rfl

theorem step_settle_present (w : World) (id : Nat) (o : Outcome) (hid : id ∈ w.pending) :
    lastSettled (step w (.settle id o)).log = some (id, o) ∧
      ∀ t, rendering o = some t → (step w (.settle id o)).output = t := by
  cases o with
  | resolved r =>
    simp only [step, hid, if_true, clickHandlerResume, rendering]
    cases hr : jsString r with
    | ok t => simp [setOutput, lastSettled, List.foldl_append, noteSettled]
    | error x =>
      simp only [catchClause]
      cases hx : templateString x <;> simp [setOutput, lastSettled, List.foldl_append, noteSettled]
  | rejected e =>
    simp only [step, hid, if_true, clickHandlerResume, catchClause, rendering]
    cases he : templateString e <;> simp [setOutput, lastSettled, List.foldl_append, noteSettled]

theorem showsLastSettled_step (w : World) (e : Event) (h : ShowsLastSettled w) :
    ShowsLastSettled (step w e) := by
  cases e with
  | click => left; rw [step_click]; simp
  | input text => exact h
  | settle id o =>
    by_cases hid : id ∈ w.pending
    · right; right
      exact ⟨id, o, step_settle_present w id o hid⟩
    · rw [step_settle_absent w id o hid]; exact h

theorem showsLastSettled_run (es : List Event) (w : World) (h : ShowsLastSettled w) :
    ShowsLastSettled (run w es) := by
  induction es generalizing w with
  | nil => exact h
  | cons e rest ih => exact ih (step w e) (showsLastSettled_step w e h)

/-! ## C1: a click whose invocation resolves -/

/-- C1: for every state of the page with textarea content `s` and every value
`r` whose coercion `String(r)` is the string `t`: a click followed by the
resolution of its invocation with `r` adds to the log, in this order, the
write of `Running...`, exactly one invocation, of `run_starlark` with the
argument mapping `script ↦ s`, the settlement, the write of `t` and the normal
end of the handler; the backend has received exactly that one new call, and
the output text is `t`. -/
theorem click_resolved_displays_result (w : World) (r : JSVal) (t : String)
    (ht : jsString r = .ok t) :
    (run w [.click, .settle (calls w.log).length (.resolved r)]).log =
        w.log ++ [.write "Running...",
          .invoke (calls w.log).length ⟨"run_starlark", [("script", w.textarea)]⟩,
          .settled (calls w.log).length (.resolved r), .write t,
          .finished (calls w.log).length .returned] ∧
      calls (run w [.click, .settle (calls w.log).length (.resolved r)]).log =
        calls w.log ++ [⟨"run_starlark", [("script", w.textarea)]⟩] ∧
      (run w [.click, .settle (calls w.log).length (.resolved r)]).output = t := by
  have h : run w [.click, .settle (calls w.log).length (.resolved r)] =
      step (step w .click) (.settle (calls w.log).length (.resolved r)) := rfl
  rw [h, step_click, step_settle_resolved _ _ r t (by simp) ht]
  simp [calls_append, calls, scriptRequest]

/-- The script `1+1` with the resolved value `2`: the backend receives
`script ↦ 1+1` and the output shows `2`. -/
theorem click_resolved_displays_result_witness :
    (run (World.fresh "" "1+1") [.click, .settle 0 (.resolved (.int 2))]).log =
        [.write "Running...", .invoke 0 ⟨"run_starlark", [("script", "1+1")]⟩,
          .settled 0 (.resolved (.int 2)), .write "2", .finished 0 .returned] ∧
      calls (run (World.fresh "" "1+1") [.click, .settle 0 (.resolved (.int 2))]).log =
        [⟨"run_starlark", [("script", "1+1")]⟩] ∧
      (run (World.fresh "" "1+1") [.click, .settle 0 (.resolved (.int 2))]).output = "2" :=
  click_resolved_displays_result (World.fresh "" "1+1") (.int 2) "2" rfl

/-! ## C2: a click whose invocation rejects -/

/-- C2 as stated fails for an `Error` instance: the rejection
`TypeError("boom")` has the message `boom`, and the output shows
`Error: TypeError: boom`, the coercion of the whole value, not `Error: boom`. -/
theorem rejected_error_object_shows_name_too :
    messageOf (.error "TypeError" "boom") = some "boom" ∧
      (run (World.fresh "" "1+1")
        [.click, .settle 0 (.rejected (.error "TypeError" "boom"))]).output
        = "Error: TypeError: boom" ∧
      (run (World.fresh "" "1+1")
        [.click, .settle 0 (.rejected (.error "TypeError" "boom"))]).output
        ≠ "Error: " ++ "boom" := by
  decide

/-- C2, amended: for every state of the page and every error value `e` whose
coercion in the template literal is the string `t`: when the invocation of a
click rejects with `e`, the rejection is caught (the handler ends normally),
no further call is made, and the output text is exactly `Error: ` followed by
`t`; so it starts with `Error: `. -/
theorem click_rejected_displays_error (w : World) (e : JSVal) (t : String)
    (ht : templateString e = .ok t) :
    (run w [.click, .settle (calls w.log).length (.rejected e)]).log =
        w.log ++ [.write "Running...",
          .invoke (calls w.log).length ⟨"run_starlark", [("script", w.textarea)]⟩,
          .settled (calls w.log).length (.rejected e), .write ("Error: " ++ t),
          .finished (calls w.log).length .returned] ∧
      (run w [.click, .settle (calls w.log).length (.rejected e)]).output = "Error: " ++ t ∧
      ∃ rest, (run w [.click, .settle (calls w.log).length (.rejected e)]).output
        = "Error: " ++ rest := by
  have h : run w [.click, .settle (calls w.log).length (.rejected e)] =
      step (step w .click) (.settle (calls w.log).length (.rejected e)) := rfl
  rw [h, step_click, step_settle_rejected _ _ e t (by simp) ht]
  exact ⟨by simp [scriptRequest], rfl, t, rfl⟩

/-- The rejection with the string `no such command` shows
`Error: no such command`. -/
theorem click_rejected_displays_error_witness :
    (run (World.fresh "" "1+1") [.click, .settle 0 (.rejected (.str "no such command"))]).log =
        [.write "Running...", .invoke 0 ⟨"run_starlark", [("script", "1+1")]⟩,
          .settled 0 (.rejected (.str "no such command")),
          .write ("Error: " ++ "no such command"), .finished 0 .returned] ∧
      (run (World.fresh "" "1+1")
        [.click, .settle 0 (.rejected (.str "no such command"))]).output
        = "Error: " ++ "no such command" ∧
      ∃ rest, (run (World.fresh "" "1+1")
        [.click, .settle 0 (.rejected (.str "no such command"))]).output
        = "Error: " ++ rest :=
  click_rejected_displays_error (World.fresh "" "1+1") (.str "no such command")
    "no such command" rfl

/-! ## C3: the first effect of a click -/

/-- C3: for every state of the page, a click first writes `Running...` to the
output and only then issues the invocation (the two entries it adds to the
log, in this order), nothing has settled or finished within the click, and
the output text is `Running...` when the click task ends.  When no other
invocation is in flight and no other click occurs, the text stays
`Running...` and the invocation stays pending through every sequence of
events that does not settle it. -/
theorem click_shows_running_first (w : World) (es : List Event)
    (hquiet : w.pending = [])
    (hes : ∀ e ∈ es, idle [(calls w.log).length] e = true) :
    (step w .click).log = w.log ++ [.write "Running...",
        .invoke (calls w.log).length ⟨"run_starlark", [("script", w.textarea)]⟩] ∧
      (step w .click).output = "Running..." ∧
      (run w (.click :: es)).output = "Running..." ∧
      (run w (.click :: es)).pending = [(calls w.log).length] := by
  have hp : (step w .click).pending = [(calls w.log).length] := by
    rw [step_click, hquiet]; rfl
  have h := run_idle es (step w .click) (by rw [hp]; exact hes)
  rw [run_cons]
  refine ⟨by rw [step_click]; rfl, by rw [step_click], ?_, ?_⟩
  · rw [h.1, step_click]
  · rw [h.2.1, hp]

/-- A page showing an old result: after the click, an edit of the textarea and
the settlement of an unknown promise leave `Running...` in the output. -/
theorem click_shows_running_first_witness :
    (step (World.fresh "42" "1+1") .click).log = [.write "Running...",
        .invoke 0 ⟨"run_starlark", [("script", "1+1")]⟩] ∧
      (step (World.fresh "42" "1+1") .click).output = "Running..." ∧
      (run (World.fresh "42" "1+1")
        [.click, .input "2+2", .settle 7 (.resolved (.str "x"))]).output = "Running..." ∧
      (run (World.fresh "42" "1+1")
        [.click, .input "2+2", .settle 7 (.resolved (.str "x"))]).pending = [0] :=
  click_shows_running_first (World.fresh "42" "1+1")
    [.input "2+2", .settle 7 (.resolved (.str "x"))] rfl (by decide)

/-! ## C5: one invocation for each click -/

/-- C5: for every state of the page and every outcome of the invocation,
resolved or rejected, coercible or not, a click and the settlement of its
invocation add exactly one call to those the backend has received, and the
settlement itself adds none (nothing is retried); over every sequence of
events, the number of calls made is the number of clicks. -/
theorem one_invocation_for_each_click (w : World) (o : Outcome) (es : List Event) :
    calls (run w [.click, .settle (calls w.log).length o]).log =
        calls w.log ++ [⟨"run_starlark", [("script", w.textarea)]⟩] ∧
      (∀ id, calls (step w (.settle id o)).log = calls w.log) ∧
      (calls (run w es).log).length = (calls w.log).length + clicks es := by
  refine ⟨?_, fun id => calls_step_settle w id o, calls_length_run es w⟩
  have h : run w [.click, .settle (calls w.log).length o] =
      step (step w .click) (.settle (calls w.log).length o) := rfl
  rw [h, calls_step_settle, calls_step]
  rfl

/-! ## C6: no validation before the invocation -/

/-- C6: for every state of the page, whatever the textarea holds (the empty
string and blank text included), a click issues the invocation of
`run_starlark` with the argument mapping `script ↦` the textarea's content,
unchanged; when the click task ends the invocation is pending, the output
shows `Running...` and not an error, and no handler activation has finished:
the handler never returns before calling the backend. -/
theorem click_always_invokes (w : World) :
    calls (step w .click).log =
        calls w.log ++ [⟨"run_starlark", [("script", w.textarea)]⟩] ∧
      (calls w.log).length ∈ (step w .click).pending ∧
      (step w .click).output = "Running..." ∧
      completions (step w .click).log = completions w.log := by
  rw [step_click]
  simp [calls_append, calls, completions_append, completions, scriptRequest]

/-! ## C7: overlapping clicks -/

/-- C7: for every state of the page, whatever is pending in it, and every list
of `n` texts: typing each text and clicking, with no invocation settling in
between, makes `n` clicks and `n` calls to the backend, the call of each click
carrying the text the textarea held at that click; all `n` invocations are
pending together after the last click (none waited for an earlier one to
complete) and no handler activation has finished. -/
theorem overlapping_clicks_all_invoke (w : World) (ss : List String) :
    clicks (typeAndClick ss) = ss.length ∧
      calls (run w (typeAndClick ss)).log =
        calls w.log ++ ss.map (fun s => ⟨"run_starlark", [("script", s)]⟩) ∧
      (run w (typeAndClick ss)).pending =
        w.pending ++ List.range' (calls w.log).length ss.length ∧
      completions (run w (typeAndClick ss)).log = completions w.log := by
  refine ⟨clicks_typeAndClick ss, ?_⟩
  induction ss generalizing w with
  | nil => simp [typeAndClick, run]
  | cons s rest ih =>
    have h : run w (typeAndClick (s :: rest)) =
        run (step (step w (.input s)) .click) (typeAndClick rest) := rfl
    have hw := ih (step (step w (.input s)) .click)
    rw [h, hw.1, hw.2.1, hw.2.2, step_click]
    simp [step, calls_append, calls, completions_append, completions, scriptRequest,
      List.range']

/-! ## C8: the handler itself does not fail -/

/-- C8: for every state of the page and every outcome that is coercible, with
rendering `t`: after a click and the settlement of its invocation the handler
activation of that click has ended normally (no exception escaped), the
output text is `t`, and so it differs from `Running...` unless the rendering
is itself that text; after a rejection it always differs. -/
theorem handler_never_fails (w : World) (o : Outcome) (t : String)
    (ht : rendering o = some t) :
    completions (run w [.click, .settle (calls w.log).length o]).log =
        completions w.log ++ [((calls w.log).length, .returned)] ∧
      (run w [.click, .settle (calls w.log).length o]).output = t ∧
      ((run w [.click, .settle (calls w.log).length o]).output = "Running..." →
        rendering o = some "Running...") ∧
      (∀ e, o = .rejected e →
        (run w [.click, .settle (calls w.log).length o]).output ≠ "Running...") := by
  have h : run w [.click, .settle (calls w.log).length o] =
      step (step w .click) (.settle (calls w.log).length o) := rfl
  cases o with
  | resolved r =>
    cases hr : jsString r with
    | error x => simp [rendering, hr] at ht
    | ok t2 =>
      have ht2 : t2 = t := by simpa [rendering, hr] using ht
      subst ht2
      rw [h, step_click, step_settle_resolved _ _ r t2 (by simp) hr]
      refine ⟨by simp [completions_append, completions], rfl, ?_, by simp⟩
      intro hrun
      rw [ht]
      exact congrArg some hrun
  | rejected e =>
    cases he : templateString e with
    | error x => simp [rendering, he] at ht
    | ok t2 =>
      have ht2 : "Error: " ++ t2 = t := by simpa [rendering, he] using ht
      subst ht2
      rw [h, step_click, step_settle_rejected _ _ e t2 (by simp) he]
      refine ⟨by simp [completions_append, completions], rfl, ?_, ?_⟩
      · intro hrun
        exact absurd hrun (error_text_ne_running t2)
      · intro _ _
        exact error_text_ne_running t2

/-- The rejection with the string `boom` is caught: the handler ends normally
and the output shows `Error: boom`. -/
theorem handler_never_fails_witness :
    completions (run (World.fresh "" "1+1") [.click, .settle 0 (.rejected (.str "boom"))]).log =
        [(0, .returned)] ∧
      (run (World.fresh "" "1+1") [.click, .settle 0 (.rejected (.str "boom"))]).output
        = "Error: boom" ∧
      ((run (World.fresh "" "1+1")
          [.click, .settle 0 (.rejected (.str "boom"))]).output = "Running..." →
        rendering (.rejected (.str "boom")) = some "Running...") ∧
      (∀ e, Outcome.rejected (.str "boom") = .rejected e →
        (run (World.fresh "" "1+1")
          [.click, .settle 0 (.rejected (.str "boom"))]).output ≠ "Running...") :=
  handler_never_fails (World.fresh "" "1+1") (.rejected (.str "boom")) "Error: boom" rfl

/-- Outside the contract the handler can fail: a rejection with a Symbol makes
the template literal of the `catch` clause throw, the exception leaves the
handler and the output keeps `Running...`. -/
theorem rejected_symbol_escapes_handler :
    completions (run (World.fresh "" "1+1")
        [.click, .settle 0 (.rejected (.symbol none))]).log = [(0, .threw symbolTypeError)] ∧
      (run (World.fresh "" "1+1")
        [.click, .settle 0 (.rejected (.symbol none))]).output = "Running..." := by
  decide

/-! ## C9: frame and overwrite -/

/-- C9: for every state of the page and every outcome, a click and the
settlement of its invocation leave the textarea's value as it was; and the
output text at the end is the same from any two states of the page, whatever
their output text, textarea, pending invocations and log: it depends on the
outcome alone. -/
theorem click_writes_output_only (w w2 : World) (o : Outcome) :
    (run w [.click, .settle (calls w.log).length o]).textarea = w.textarea ∧
      (run w [.click, .settle (calls w.log).length o]).output =
        (run w2 [.click, .settle (calls w2.log).length o]).output := by
  have h : ∀ v : World, run v [.click, .settle (calls v.log).length o] =
      step (step v .click) (.settle (calls v.log).length o) := fun _ => rfl
  rw [h w, h w2, step_click, step_click]
  constructor
  · simp [step, textarea_resume]
  · simp only [step, List.mem_append, List.mem_singleton, or_true, if_true]
    exact output_resume _ _ o rfl

/-! ## C4: which invocation the output reflects -/

/-- C4 as stated fails when invocations settle out of click order: two clicks,
the first with script `a` and the second with script `b`; the second
invocation resolves with `second`, then the first resolves with `first`.  All
invocations have completed, the latest click's outcome renders as `second`,
and the output shows `first`. -/
theorem late_settlement_of_earlier_click_wins :
    (run (World.fresh "" "a")
        [.click, .input "b", .click, .settle 1 (.resolved (.str "second")),
          .settle 0 (.resolved (.str "first"))]).pending = [] ∧
      calls (run (World.fresh "" "a")
        [.click, .input "b", .click, .settle 1 (.resolved (.str "second")),
          .settle 0 (.resolved (.str "first"))]).log
        = [⟨"run_starlark", [("script", "a")]⟩, ⟨"run_starlark", [("script", "b")]⟩] ∧
      rendering (.resolved (.str "second")) = some "second" ∧
      (run (World.fresh "" "a")
        [.click, .input "b", .click, .settle 1 (.resolved (.str "second")),
          .settle 0 (.resolved (.str "first"))]).output = "first" ∧
      (run (World.fresh "" "a")
        [.click, .input "b", .click, .settle 1 (.resolved (.str "second")),
          .settle 0 (.resolved (.str "first"))]).output ≠ "second" := by
  decide

/-- C4, amended: for every sequence of events from the page before any click,
with at least one click: once all invocations have completed, some invocation
has settled last, and the output text is the rendering of the outcome of that
invocation, whenever the outcome has a rendering. -/
theorem output_reflects_last_settled (text script : String) (es : List Event)
    (hclick : 0 < clicks es)
    (hdone : (run (World.fresh text script) es).pending = []) :
    ∃ id o, lastSettled (run (World.fresh text script) es).log = some (id, o) ∧
      ∀ t, rendering o = some t → (run (World.fresh text script) es).output = t := by
  have hinv : ShowsLastSettled (run (World.fresh text script) es) :=
    showsLastSettled_run es _ (Or.inr (Or.inl rfl))
  have hcalls := calls_length_run es (World.fresh text script)
  rcases hinv with hp | hc | hs
  · exact absurd hdone hp
  · rw [hc] at hcalls
    simp [World.fresh, calls] at hcalls
    omega
  · exact hs

/-- Two overlapping clicks whose invocations settle in click order: the last
to settle is the second, and the output shows its result. -/
theorem output_reflects_last_settled_witness :
    ∃ id o, lastSettled (run (World.fresh "" "a")
        [.click, .click, .settle 0 (.resolved (.str "first")),
          .settle 1 (.rejected (.str "second"))]).log = some (id, o) ∧
      ∀ t, rendering o = some t → (run (World.fresh "" "a")
        [.click, .click, .settle 0 (.resolved (.str "first")),
          .settle 1 (.rejected (.str "second"))]).output = t :=
  output_reflects_last_settled "" "a"
    [.click, .click, .settle 0 (.resolved (.str "first")),
      .settle 1 (.rejected (.str "second"))] (by decide) (by decide)

end BlackAnvil
